import Mathlib

/-!
Verification of the synchronization and reminder-delivery core of the
glass-todo server (`src/server.js`).

The embedding below translates the relevant JavaScript directly:

* the per-user task store (`data` table: `username → (json_data, version)`)
  becomes `Store := String → Option (List Task × Int)`;
* the `POST /api/data` handler (lines 206–219) becomes `publish`, with the
  wall-clock `Date.now()` at the moment of write passed in as `now`;
* the `GET /api/data` handler (lines 200–204) becomes `fetch`;
* the reminder scanner (`scanAndSendReminders`, lines 139–179) becomes
  `taskDue` (the per-task dispatch decision), `scanTasks` (the per-user task
  loop) and `processRow` (the conditional write-back);
* the push fan-out (`sendPushToUser`, lines 108–137) becomes
  `sendPushToUser`, with the external push transport abstracted as a
  function `outcome : String → PushResult` from endpoint to delivery result.

JavaScript truthiness on the numeric fields `remindAt` / `notifiedAt` /
`deletedAt` (where `0`, like `undefined`, is falsy) is modelled by `truthy`
on `Option Int`; the JS comparison `version < serverVersion`, which is
false when `version` is `undefined`, is modelled by `versionLt` on
`Option Int`.
-/

namespace GlassTodo

/-- A task record, with the fields the server inspects
(`id`, `date`, `start`, `status`, `deletedAt`, `remindAt`, `notifiedAt`,
plus `title` used for notification text) and an opaque remainder `extra`
standing for all client fields the server never reads. -/
structure Task where
  id : String
  title : String
  date : Option String
  start : Option String
  status : String
  deletedAt : Option Int
  remindAt : Option Int
  notifiedAt : Option Int
  extra : List (String × String)
deriving DecidableEq, Repr

/-- The per-user task store: the `data` table maps a username to its stored
task list and version stamp (`SELECT json_data, version FROM data`). -/
def Store := String → Option (List Task × Int)

/-- The store with no rows. -/
def emptyStore : Store := fun _ => none

/-- JS truthiness of an optional numeric field: `undefined` and `0` are
falsy, every other number is truthy. -/
def truthy : Option Int → Bool
  | none => false
  | some n => n != 0

/-- Result of a `POST /api/data` call: success with the new version, or a
409 Conflict carrying the server's version. -/
inductive PubResult where
  | ok (version : Int)
  | conflict (serverVersion : Int)
deriving DecidableEq, Repr

/-- The stored version for a user: `row ? row.version : 0`. -/
def serverVersion (st : Store) (u : String) : Int :=
  match st u with
  | some (_, ver) => ver
  | none => 0

/-- The JS comparison `version < serverVersion` where `version` may be
absent: `undefined < n` is false (NaN comparison). -/
def versionLt : Option Int → Int → Bool
  | none, _ => false
  | some v, sv => v < sv

/-- The `POST /api/data` handler (server.js lines 206–219): read the stored
version, reject with Conflict when `!force && version < serverVersion`,
otherwise overwrite the row with the posted data and `newVersion = Date.now()`
(the `now` argument) and return success. -/
def publish (st : Store) (u : String) (data : List Task)
    (version : Option Int) (force : Bool) (now : Int) : PubResult × Store :=
  if !force && versionLt version (serverVersion st u) then
    (PubResult.conflict (serverVersion st u), st)
  else
    (PubResult.ok now, fun x => if x = u then some (data, now) else st x)

/-- The `GET /api/data` handler (server.js lines 200–204): return the stored
list and version, or `([], 0)` when no row exists. -/
def fetch (st : Store) (u : String) : List Task × Int :=
  match st u with
  | some (ts, ver) => (ts, ver)
  | none => ([], 0)

/-- C1: a publish with `force = false` whose client version is numerically
below the stored server version returns Conflict carrying the true server
version, and the store (task collection and version) is unchanged. -/
theorem conflict_rejection (st : Store) (u : String) (data : List Task)
    (v now : Int) (h : v < serverVersion st u) :
    publish st u data (some v) false now
      = (PubResult.conflict (serverVersion st u), st) := by
  simp [publish, versionLt, h]

/-- Concrete run of `conflict_rejection`: stored version 5, client version 4. -/
theorem conflict_rejection_witness :
    publish (fun x => if x = "alice" then some ([], 5) else none)
        "alice" [] (some 4) false 99
      = (PubResult.conflict 5,
         fun x => if x = "alice" then some ([], 5) else none) :=
  conflict_rejection (fun x => if x = "alice" then some ([], 5) else none)
    "alice" [] 4 99 (by decide)

/-- C5: a publish with `force = true` always succeeds: it returns success
carrying `now` (the wall-clock timestamp at the moment of write), stores
exactly the posted data with version `now` for that user, and leaves every
other user's row unchanged. -/
theorem force_bypass (st : Store) (u : String) (data : List Task)
    (version : Option Int) (now : Int) :
    (publish st u data version true now).1 = PubResult.ok now
    ∧ (publish st u data version true now).2 u = some (data, now)
    ∧ ∀ w, w ≠ u → (publish st u data version true now).2 w = st w := by
  refine ⟨by simp [publish], by simp [publish], fun w hw => ?_⟩
  simp [publish, hw]

/-- Concrete run of `force_bypass`: forced publish over a stale client
version succeeds and overwrites only the targeted user. -/
theorem force_bypass_witness :
    (publish (fun x => if x = "alice" then some ([], 5) else none)
        "alice" [] (some 1) true 9).1 = PubResult.ok 9
    ∧ (publish (fun x => if x = "alice" then some ([], 5) else none)
        "alice" [] (some 1) true 9).2 "alice" = some ([], 9)
    ∧ (publish (fun x => if x = "alice" then some ([], 5) else none)
        "alice" [] (some 1) true 9).2 "bob" = none :=
  ⟨(force_bypass _ "alice" [] (some 1) 9).1,
   (force_bypass _ "alice" [] (some 1) 9).2.1,
   by
    have h := (force_bypass
      (fun x => if x = "alice" then some ([], 5) else none)
      "alice" [] (some 1) 9).2.2 "bob" (by decide)
    simpa using h⟩

/-- C6: `fetch` returns the stored collection with its stored version when a
row exists, and the empty list with version 0 when none exists; it is a
total function, so it never fails. -/
theorem fetch_total (st : Store) (u : String) :
    (∀ ts ver, st u = some (ts, ver) → fetch st u = (ts, ver))
    ∧ (st u = none → fetch st u = ([], 0)) := by
  constructor
  · intro ts ver h
    simp [fetch, h]
  · intro h
    simp [fetch, h]

/-- Concrete runs of `fetch_total`: a present row and an absent row. -/
theorem fetch_total_witness :
    fetch (fun x => if x = "alice" then some ([], 5) else none) "alice"
      = ([], 5)
    ∧ fetch emptyStore "bob" = ([], 0) :=
  ⟨(fetch_total (fun x => if x = "alice" then some ([], 5) else none)
      "alice").1 [] 5 (by simp),
   (fetch_total emptyStore "bob").2 rfl⟩

/-- C9: a publish with `force = false` whose client version is absent never
returns Conflict — the JS comparison `undefined < serverVersion` is false —
so the call succeeds and overwrites the stored collection. -/
theorem absent_version_never_conflicts (st : Store) (u : String)
    (data : List Task) (now : Int) :
    (publish st u data none false now).1 = PubResult.ok now
    ∧ (publish st u data none false now).2 u = some (data, now) := by
  constructor <;> simp [publish, versionLt]

/-- Helper: a successful publish returns exactly the write timestamp. -/
theorem publish_ok_version (st : Store) (u : String) (data : List Task)
    (version : Option Int) (force : Bool) (now v : Int) (st2 : Store)
    (h : publish st u data version force now = (PubResult.ok v, st2)) :
    v = now := by
  rw [publish] at h
  split at h
  · have hfst := congrArg Prod.fst h
    simp at hfst
  · have hfst := congrArg Prod.fst h
    simp at hfst
    omega

/-- C4 (amended): across two consecutive successful publishes for the same
user, the returned versions are ordered as the wall-clock write timestamps:
never decreasing, and strictly increasing whenever the clock strictly
advanced between the two writes. -/
theorem version_monotone (st s1 s2 : Store) (u : String)
    (d1 d2 : List Task) (ver1 ver2 : Option Int) (f1 f2 : Bool)
    (t1 t2 v1 v2 : Int)
    (h1 : publish st u d1 ver1 f1 t1 = (PubResult.ok v1, s1))
    (h2 : publish s1 u d2 ver2 f2 t2 = (PubResult.ok v2, s2))
    (ht : t1 ≤ t2) :
    v1 ≤ v2 ∧ (t1 < t2 → v1 < v2) := by
  have e1 := publish_ok_version st u d1 ver1 f1 t1 v1 s1 h1
  have e2 := publish_ok_version s1 u d2 ver2 f2 t2 v2 s2 h2
  subst e1; subst e2
  exact ⟨ht, fun hlt => hlt⟩

/-- Concrete run of `version_monotone`: two forced publishes at timestamps
5 and 6 return versions 5 and 6. -/
theorem version_monotone_witness : (5 : Int) ≤ 6 ∧ ((5 : Int) < 6 → (5 : Int) < 6) :=
  version_monotone emptyStore
    ((publish emptyStore "a" [] none true 5).2)
    ((publish ((publish emptyStore "a" [] none true 5).2) "a" [] none true 6).2)
    "a" [] [] none none true true 5 6 5 6 rfl rfl (by decide)

/-- C4 counterexample: two successive successful publishes that share a
wall-clock millisecond both return version 7, so the second returned
version is not strictly greater than the first. -/
theorem version_tie_counterexample :
    (publish emptyStore "a" [] none true 7).1 = PubResult.ok 7
    ∧ (publish ((publish emptyStore "a" [] none true 7).2)
        "a" [] none true 7).1 = PubResult.ok 7
    ∧ ¬ ((7 : Int) < 7) :=
  ⟨rfl, rfl, by decide⟩

/-- `PUSH_WINDOW_MS = 60 * 1000` (server.js line 18): the reminder delivery
window in milliseconds. -/
def PUSH_WINDOW_MS : Int := 60000

/-- The already-handled check (server.js line 163):
`task.notifiedAt && task.notifiedAt >= remindAt` — a truthiness conjunction,
so `notifiedAt = 0` behaves like an absent `notifiedAt`. -/
def alreadyNotified : Option Int → Int → Bool
  | none, _ => false
  | some n, r => decide (n ≠ 0 ∧ r ≤ n)

/-- The scanner's per-task dispatch decision (server.js lines 160–164): skip
tasks that are deleted (truthy `deletedAt`), completed, without a truthy
`remindAt`, already notified, or outside the half-open window
`[remindAt, remindAt + PUSH_WINDOW_MS)`; dispatch otherwise. -/
def taskDue (t : Task) (now : Int) : Bool :=
  if truthy t.deletedAt then false
  else if t.status = "completed" then false
  else
    match t.remindAt with
    | none => false
    | some r =>
      if r = 0 then false
      else if alreadyNotified t.notifiedAt r then false
      else if now < r ∨ r + PUSH_WINDOW_MS ≤ now then false
      else true

/-- C2: for a task the scanner considers (not deleted, not completed,
`remindAt` present in the code's sense, i.e. truthy, and not already
notified), dispatch happens exactly when the scan time lies in the
half-open window `[remindAt, remindAt + PUSH_WINDOW_MS)`; in particular a
scan at `remindAt - 1` does not dispatch, a scan at `remindAt` dispatches,
and a scan at `remindAt + PUSH_WINDOW_MS` does not dispatch. -/
theorem reminder_window_edges (t : Task) (r : Int)
    (hd : truthy t.deletedAt = false)
    (hs : t.status ≠ "completed")
    (hr : t.remindAt = some r) (hr0 : r ≠ 0)
    (hn : alreadyNotified t.notifiedAt r = false) :
    (∀ now : Int, taskDue t now = true ↔ (r ≤ now ∧ now < r + PUSH_WINDOW_MS))
    ∧ taskDue t (r - 1) = false
    ∧ taskDue t r = true
    ∧ taskDue t (r + PUSH_WINDOW_MS) = false := by
  have hW : (0 : Int) < PUSH_WINDOW_MS := by norm_num [PUSH_WINDOW_MS]
  have key : ∀ now : Int,
      taskDue t now = true ↔ (r ≤ now ∧ now < r + PUSH_WINDOW_MS) := by
    intro now
    simp only [taskDue, hd, hs, hr, hr0, hn]
    by_cases hwin : now < r ∨ r + PUSH_WINDOW_MS ≤ now
    · simp [hwin]
      omega
    · simp [hwin]
      omega
  refine ⟨key, ?_, ?_, ?_⟩
  · have h1 : ¬ taskDue t (r - 1) = true := by
      rw [key]
      omega
    simpa using h1
  · exact (key r).2 ⟨le_refl r, by omega⟩
  · have h3 : ¬ taskDue t (r + PUSH_WINDOW_MS) = true := by
      rw [key]
      omega
    simpa using h3

/-- A live pending task used to instantiate the scanner theorems. -/
def pendingTask : Task :=
  { id := "t1", title := "demo", date := none, start := none,
    status := "active", deletedAt := none, remindAt := some 100,
    notifiedAt := none, extra := [] }

/-- Concrete run of `reminder_window_edges` at `remindAt = 100`. -/
theorem reminder_window_edges_witness :
    taskDue pendingTask (100 - 1) = false
    ∧ taskDue pendingTask 100 = true
    ∧ taskDue pendingTask (100 + PUSH_WINDOW_MS) = false :=
  (reminder_window_edges pendingTask 100 rfl (by decide) rfl (by decide)
    rfl).2

/-- C3 (amended): a task whose `notifiedAt` is present, nonzero (truthy in
the code's sense) and at least its `remindAt` is never dispatched by any
scan. -/
theorem notified_never_redispatched (t : Task) (r n now : Int)
    (hr : t.remindAt = some r) (hn : t.notifiedAt = some n)
    (hn0 : n ≠ 0) (hge : r ≤ n) :
    taskDue t now = false := by
  simp [taskDue, hr, alreadyNotified, hn, hn0, hge]

/-- Concrete run of `notified_never_redispatched`: a task notified exactly
at its reminder time is not dispatched by a later scan. -/
theorem notified_never_redispatched_witness :
    taskDue { pendingTask with notifiedAt := some 100 } 130 = false :=
  notified_never_redispatched { pendingTask with notifiedAt := some 100 }
    100 100 130 rfl rfl (by decide) (by decide)

/-- A task with `notifiedAt = 0` (falsy) and a negative `remindAt`, so that
`notifiedAt >= remindAt` holds yet the already-handled guard does not fire. -/
def zeroNotifiedTask : Task :=
  { id := "t2", title := "demo", date := none, start := none,
    status := "active", deletedAt := none, remindAt := some (-1),
    notifiedAt := some 0, extra := [] }

/-- C3 counterexample: `zeroNotifiedTask` has `notifiedAt` present and
greater than or equal to its `remindAt`, yet a scan at time 0 dispatches it
again, because the code's truthiness check treats `notifiedAt = 0` as
absent. -/
theorem notified_zero_redispatch_counterexample :
    zeroNotifiedTask.notifiedAt = some 0
    ∧ zeroNotifiedTask.remindAt = some (-1)
    ∧ (-1 : Int) ≤ 0
    ∧ taskDue zeroNotifiedTask 0 = true := by
  refine ⟨rfl, rfl, by decide, by decide⟩

/-- A task whose `remindAt` is the falsy value 0. -/
def zeroRemindTask : Task :=
  { id := "t3", title := "demo", date := none, start := none,
    status := "active", deletedAt := none, remindAt := some 0,
    notifiedAt := none, extra := [] }

/-- C10: a task with `remindAt = 0` is never dispatched (the truthiness
check `!remindAt` treats 0 as "no reminder"), even at scan times inside
`[0, PUSH_WINDOW_MS)`; and `notifiedAt = 0` behaves exactly like an absent
`notifiedAt` in the already-handled check. -/
theorem zero_fields_treated_absent (t : Task) (now : Int) :
    (t.remindAt = some 0 → taskDue t now = false)
    ∧ taskDue { t with notifiedAt := some 0 } now
        = taskDue { t with notifiedAt := none } now := by
  constructor
  · intro h
    simp [taskDue, h]
  · simp [taskDue, alreadyNotified]

/-- Concrete run of `zero_fields_treated_absent`: a scan at time 50
(inside `[0, PUSH_WINDOW_MS)`) does not dispatch `zeroRemindTask`, and
setting `notifiedAt = 0` on `pendingTask` changes nothing. -/
theorem zero_fields_treated_absent_witness :
    taskDue zeroRemindTask 50 = false
    ∧ taskDue { pendingTask with notifiedAt := some 0 } 50
        = taskDue { pendingTask with notifiedAt := none } 50 :=
  ⟨(zero_fields_treated_absent zeroRemindTask 50).1 rfl,
   (zero_fields_treated_absent pendingTask 50).2⟩

/-- A push subscription row (`push_subscriptions` table): endpoint is the
natural key, with owner username and the two client keys. -/
structure Sub where
  endpoint : String
  username : String
  p256dh : String
  auth : String
deriving DecidableEq, Repr

/-- Result reported by the external push transport for one delivery
attempt: success, or failure with an HTTP status code. -/
inductive PushResult where
  | ok
  | fail (code : Int)
deriving DecidableEq, Repr

/-- The dead-endpoint test (server.js lines 127–128):
`code === 404 || code === 410`. -/
def isGone : PushResult → Bool
  | PushResult.ok => false
  | PushResult.fail code => decide (code = 404 ∨ code = 410)

/-- The push fan-out `sendPushToUser` (server.js lines 108–137): when push
is configured, load the user's subscriptions; if none, return false without
touching the registry; otherwise attempt delivery to each endpoint and run
`DELETE FROM push_subscriptions WHERE endpoint = ?` for every attempt that
failed with status 404 or 410, then return true. The external transport is
the function `outcome` from endpoint to result; the registry after the call
is the first component of the returned pair. -/
def sendPushToUser (cfg : Bool) (reg : List Sub) (u : String)
    (outcome : String → PushResult) : List Sub × Bool :=
  if !cfg then (reg, false)
  else
    let subs := reg.filter (fun s => decide (s.username = u))
    if subs = [] then (reg, false)
    else
      let dead := (subs.filter (fun s => isGone (outcome s.endpoint))).map
        Sub.endpoint
      (reg.filter (fun s => decide (s.endpoint ∉ dead)), true)

/-- In a registry with pairwise-distinct endpoints, two members with the
same endpoint are the same subscription. -/
theorem endpoint_inj (reg : List Sub)
    (huniq : reg.Pairwise (fun a b => a.endpoint ≠ b.endpoint))
    (a b : Sub) (ha : a ∈ reg) (hb : b ∈ reg)
    (he : a.endpoint = b.endpoint) : a = b := by
  induction reg with
  | nil => cases ha
  | cons x xs ih =>
    rcases List.pairwise_cons.mp huniq with ⟨hx, hxs⟩
    rcases List.mem_cons.mp ha with rfl | ha2
    · rcases List.mem_cons.mp hb with rfl | hb2
      · rfl
      · exact absurd he (hx b hb2)
    · rcases List.mem_cons.mp hb with rfl | hb2
      · exact absurd he.symm (hx a ha2)
      · exact ih hxs ha2 hb2

/-- C7: during a configured fan-out over a registry whose endpoints are
pairwise distinct (the table's key invariant), every subscription of the
target user whose delivery fails with status 404 or 410 is absent from the
registry afterwards; every other subscription of that user survives
unchanged (in particular any other delivery failure removes nothing);
subscriptions of other users survive; and nothing is added or modified. -/
theorem dead_endpoint_pruning (reg : List Sub) (u : String)
    (outcome : String → PushResult)
    (huniq : reg.Pairwise (fun a b => a.endpoint ≠ b.endpoint)) :
    (∀ s ∈ reg, s.username = u → isGone (outcome s.endpoint) = true →
        s ∉ (sendPushToUser true reg u outcome).1)
    ∧ (∀ s ∈ reg, s.username = u → isGone (outcome s.endpoint) = false →
        s ∈ (sendPushToUser true reg u outcome).1)
    ∧ (∀ s ∈ reg, s.username ≠ u → s ∈ (sendPushToUser true reg u outcome).1)
    ∧ (∀ s, s ∈ (sendPushToUser true reg u outcome).1 → s ∈ reg) := by
  by_cases hnil : reg.filter (fun s => decide (s.username = u)) = []
  · have hres : (sendPushToUser true reg u outcome).1 = reg := by
      simp [sendPushToUser, hnil]
    refine ⟨?_, ?_, ?_, ?_⟩
    · intro s hs hsu _
      exfalso
      have : s ∈ reg.filter (fun x => decide (x.username = u)) :=
        List.mem_filter.mpr ⟨hs, by simp [hsu]⟩
      rw [hnil] at this
      cases this
    · intro s hs hsu _
      rw [hres]; exact hs
    · intro s hs _
      rw [hres]; exact hs
    · intro s hs
      rw [hres] at hs; exact hs
  · have hres : (sendPushToUser true reg u outcome).1
        = reg.filter (fun s => decide (s.endpoint ∉
            ((reg.filter (fun x => decide (x.username = u))).filter
              (fun x => isGone (outcome x.endpoint))).map Sub.endpoint)) := by
      simp [sendPushToUser, hnil]
    have hdead : ∀ s ∈ reg, (s.endpoint ∈
        ((reg.filter (fun x => decide (x.username = u))).filter
          (fun x => isGone (outcome x.endpoint))).map Sub.endpoint) ↔
        (s.username = u ∧ isGone (outcome s.endpoint) = true) := by
      intro s hs
      constructor
      · intro hmem
        rcases List.mem_map.mp hmem with ⟨a, hamem, hae⟩
        rcases List.mem_filter.mp hamem with ⟨hasubs, hagone⟩
        rcases List.mem_filter.mp hasubs with ⟨hareg, hauser⟩
        have heq : a = s := endpoint_inj reg huniq a s hareg hs hae
        subst heq
        exact ⟨by simpa using hauser, hagone⟩
      · intro ⟨hsu, hgone⟩
        refine List.mem_map.mpr ⟨s, List.mem_filter.mpr
          ⟨List.mem_filter.mpr ⟨hs, by simp [hsu]⟩, hgone⟩, rfl⟩
    refine ⟨?_, ?_, ?_, ?_⟩
    · intro s hs hsu hgone
      rw [hres]
      intro hmem
      have := (List.mem_filter.mp hmem).2
      simp only [decide_eq_true_eq] at this
      exact this ((hdead s hs).mpr ⟨hsu, hgone⟩)
    · intro s hs hsu hgone
      rw [hres]
      refine List.mem_filter.mpr ⟨hs, ?_⟩
      simp only [decide_eq_true_eq]
      intro hmem
      have := (hdead s hs).mp hmem
      rw [this.2] at hgone
      cases hgone
    · intro s hs hsu
      rw [hres]
      refine List.mem_filter.mpr ⟨hs, ?_⟩
      simp only [decide_eq_true_eq]
      intro hmem
      exact hsu ((hdead s hs).mp hmem).1
    · intro s hs
      rw [hres] at hs
      exact (List.mem_filter.mp hs).1

/-- A subscription of alice whose endpoint the transport reports gone. -/
def aliceGoneSub : Sub :=
  { endpoint := "g1", username := "alice", p256dh := "p", auth := "a" }

/-- A live subscription of alice. -/
def aliceLiveSub : Sub :=
  { endpoint := "l1", username := "alice", p256dh := "p", auth := "a" }

/-- A subscription of another user. -/
def bobSub : Sub :=
  { endpoint := "b1", username := "bob", p256dh := "p", auth := "a" }

/-- A transport in which exactly endpoint `g1` is gone (status 410). -/
def demoOutcome : String → PushResult :=
  fun e => if e = "g1" then PushResult.fail 410 else PushResult.ok

/-- Concrete run of `dead_endpoint_pruning`: the 410 endpoint is pruned,
alice's live subscription and bob's subscription survive. -/
theorem dead_endpoint_pruning_witness :
    aliceGoneSub ∉ (sendPushToUser true [aliceGoneSub, aliceLiveSub, bobSub]
      "alice" demoOutcome).1
    ∧ aliceLiveSub ∈ (sendPushToUser true [aliceGoneSub, aliceLiveSub, bobSub]
      "alice" demoOutcome).1
    ∧ bobSub ∈ (sendPushToUser true [aliceGoneSub, aliceLiveSub, bobSub]
      "alice" demoOutcome).1 :=
  have h := dead_endpoint_pruning [aliceGoneSub, aliceLiveSub, bobSub]
    "alice" demoOutcome (by decide)
  ⟨h.1 aliceGoneSub (by decide) rfl (by decide),
   h.2.1 aliceLiveSub (by decide) rfl (by decide),
   h.2.2.1 bobSub (by decide) (by decide)⟩

/-- The scanner's per-task update (server.js line 167):
`task.notifiedAt = now`, every other field untouched. -/
def setNotified (t : Task) (now : Int) : Task :=
  { t with notifiedAt := some now }

/-- The scanner's loop over one user's tasks (server.js lines 159–170):
walk the list in order; for each due task run the fan-out (threading the
registry, which the fan-out may prune) and, when the fan-out reports
`sent = true`, set the task's `notifiedAt` to the scan timestamp `now` and
record the dispatch. Returns the final registry, the updated task list and
the per-task dispatch flags (the `changed` variable of the source is their
disjunction). -/
def scanTasks (cfg : Bool) (u : String) (outcome : String → PushResult)
    (now : Int) : List Sub → List Task → List Sub × List Task × List Bool
  | reg, [] => (reg, [], [])
  | reg, t :: ts =>
    if taskDue t now then
      let sr := sendPushToUser cfg reg u outcome
      let t2 := if sr.2 then setNotified t now else t
      let rest := scanTasks cfg u outcome now sr.1 ts
      (rest.1, t2 :: rest.2.1, sr.2 :: rest.2.2)
    else
      let rest := scanTasks cfg u outcome now reg ts
      (rest.1, t :: rest.2.1, false :: rest.2.2)

/-- One user's row in a scan (server.js lines 150–178): parse the stored
tasks, run the task loop, and only when `changed` (some dispatch flag is
true) write the whole updated collection back with a fresh version stamp
`wbTime` (`Date.now()` at write-back). -/
def processRow (cfg : Bool) (u : String) (outcome : String → PushResult)
    (now wbTime : Int) (reg : List Sub) (st : Store) : List Sub × Store :=
  match st u with
  | none => (reg, st)
  | some (tasks, _) =>
    let r := scanTasks cfg u outcome now reg tasks
    if r.2.2.any id then
      (r.1, fun x => if x = u then some (r.2.1, wbTime) else st x)
    else
      (r.1, st)

/-- Structure of the scanner loop: the output list is the input list with
`notifiedAt := now` on exactly the flagged positions, the flag list has the
same length as the task list, and a flag is only set on a due task. -/
theorem scanTasks_spec (cfg : Bool) (u : String)
    (outcome : String → PushResult) (now : Int) (tasks : List Task) :
    ∀ reg : List Sub,
    (scanTasks cfg u outcome now reg tasks).2.1
      = List.zipWith (fun t d => if d then setNotified t now else t) tasks
          (scanTasks cfg u outcome now reg tasks).2.2
    ∧ (scanTasks cfg u outcome now reg tasks).2.2.length = tasks.length
    ∧ (∀ p ∈ tasks.zip (scanTasks cfg u outcome now reg tasks).2.2,
        p.2 = true → taskDue p.1 now = true) := by
  induction tasks with
  | nil =>
    intro reg
    simp [scanTasks]
  | cons t ts ih =>
    intro reg
    by_cases hdue : taskDue t now = true
    · have ih2 := ih (sendPushToUser cfg reg u outcome).1
      have hunf : scanTasks cfg u outcome now reg (t :: ts)
          = ((scanTasks cfg u outcome now
                (sendPushToUser cfg reg u outcome).1 ts).1,
             (if (sendPushToUser cfg reg u outcome).2 then setNotified t now
              else t)
               :: (scanTasks cfg u outcome now
                    (sendPushToUser cfg reg u outcome).1 ts).2.1,
             (sendPushToUser cfg reg u outcome).2
               :: (scanTasks cfg u outcome now
                    (sendPushToUser cfg reg u outcome).1 ts).2.2) := by
        simp [scanTasks, hdue]
      rw [hunf]
      refine ⟨?_, ?_, ?_⟩
      · simp only [List.zipWith_cons_cons]
        rw [ih2.1]
      · simp only [List.length_cons, ih2.2.1]
      · intro p hp
        simp only [List.zip_cons_cons, List.mem_cons] at hp
        rcases hp with rfl | hp2
        · intro _; exact hdue
        · exact ih2.2.2 p hp2
    · have ih2 := ih reg
      have hunf : scanTasks cfg u outcome now reg (t :: ts)
          = ((scanTasks cfg u outcome now reg ts).1,
             t :: (scanTasks cfg u outcome now reg ts).2.1,
             false :: (scanTasks cfg u outcome now reg ts).2.2) := by
        simp [scanTasks, hdue]
      rw [hunf]
      refine ⟨?_, ?_, ?_⟩
      · simp only [List.zipWith_cons_cons, Bool.false_eq_true, if_false]
        rw [ih2.1]
      · simp only [List.length_cons, ih2.2.1]
      · intro p hp
        simp only [List.zip_cons_cons, List.mem_cons] at hp
        rcases hp with rfl | hp2
        · intro hfalse; simp at hfalse
        · exact ih2.2.2 p hp2

/-- C8: for a user whose stored row holds `tasks`, the scan's task loop
returns `tasks` with exactly the dispatched positions updated by setting
`notifiedAt` to the scan timestamp (all other fields, all non-dispatched
tasks and the order unchanged), flags only ever mark due tasks, and the
write-back happens exactly when some task was dispatched: otherwise the
store is untouched, and in the dispatching case the user's row becomes the
updated list (with the write timestamp) while every other user's row is
unchanged. -/
theorem scan_writeback_frame (cfg : Bool) (u : String)
    (outcome : String → PushResult) (now wbTime : Int) (reg reg2 : List Sub)
    (st : Store) (tasks tasks2 : List Task) (ds : List Bool) (ver : Int)
    (hst : st u = some (tasks, ver))
    (hs : scanTasks cfg u outcome now reg tasks = (reg2, tasks2, ds)) :
    tasks2 = List.zipWith (fun t d => if d then setNotified t now else t)
        tasks ds
    ∧ ds.length = tasks.length
    ∧ (∀ p ∈ tasks.zip ds, p.2 = true → taskDue p.1 now = true)
    ∧ (ds.any id = false → (processRow cfg u outcome now wbTime reg st).2 = st)
    ∧ (ds.any id = true →
        (processRow cfg u outcome now wbTime reg st).2 u = some (tasks2, wbTime)
        ∧ ∀ w, w ≠ u →
            (processRow cfg u outcome now wbTime reg st).2 w = st w) := by
  have hspec := scanTasks_spec cfg u outcome now tasks reg
  rw [hs] at hspec
  have hrow : processRow cfg u outcome now wbTime reg st
      = if ds.any id then
          (reg2, fun x => if x = u then some (tasks2, wbTime) else st x)
        else (reg2, st) := by
    rw [processRow, hst]
    simp only [hs]
  refine ⟨hspec.1, hspec.2.1, hspec.2.2, ?_, ?_⟩
  · intro hnone
    rw [hrow, hnone]
    simp
  · intro hsome
    rw [hrow, hsome]
    constructor
    · simp
    · intro w hw
      simp [hw]

/-- A single live subscription for the scan witness. -/
def demoSub : Sub :=
  { endpoint := "e1", username := "bob", p256dh := "p", auth := "a" }

/-- A transport that delivers everywhere. -/
def okOutcome : String → PushResult := fun _ => PushResult.ok

/-- A store holding one row for bob: `[pendingTask]` at version 3. -/
def demoStore : Store :=
  fun x => if x = "bob" then some ([pendingTask], 3) else none

/-- Concrete run of `scan_writeback_frame`: scanning bob's single due task
at time 100 dispatches it and writes back the collection with
`notifiedAt = 100` and version 777. -/
theorem scan_writeback_frame_witness :
    (processRow true "bob" okOutcome 100 777 [demoSub] demoStore).2 "bob"
      = some ([setNotified pendingTask 100], 777) :=
  ((scan_writeback_frame true "bob" okOutcome 100 777 [demoSub] [demoSub]
      demoStore [pendingTask] [setNotified pendingTask 100] [true] 3
      rfl rfl).2.2.2.2 rfl).1

end GlassTodo
